import Mathlib

/-!
Shallow embedding of the Watchman auxiliary scripts (Python) and proofs about
their specified behaviour.

Embedded modules:
* `scripts/nemesis/result_analyzer.py`   — divergence detection (two- and three-way)
* `scripts/nemesis/coverage_tracker.py`  — persistent coverage bookkeeping
* `scripts/nemesis/query_executor.py`    — API call retry loop, external threshold conversion
* `scripts/nemesis/external_provider_adapter.py` — ofac-api.com format translation
* `scripts/compare-implementations.py`   — response-shape normalization

Modelling conventions:
* Python `float` scores are modelled as exact rationals (`ℚ`).
* A Python value that may be `None` is an `Option`; `dict.get(k)` on a missing
  key is `none`; `dict.get(k, d)` is `Option.getD`.
* Python string truthiness (`if s:`) is `none`/`""` falsy, everything else truthy.
* Python `dict` built by comprehension / in-place update is an association list
  in key-insertion order with last-write-wins values.
* Network effects are abstracted by a function from attempt number to the
  outcome of that HTTP attempt; wall-clock sleeps are recorded in a trace list.
-/

namespace Watchman

/-- Python string truthiness for an optional string: `None` and `""` are falsy. -/
def pyTruthy : Option String → Bool
  | none => false
  | some s => s != ""

/-- Python `a or b` on optional strings: returns `a` when truthy, else `b`. -/
def pyOrStr (a b : Option String) : Option String :=
  if pyTruthy a then a else b

/-! ## result_analyzer.py -/

/-- Divergence types, from `class DivergenceType(Enum)`. -/
inductive DivergenceType where
  | TOP_RESULT_DIFFERS
  | SCORE_DIFFERENCE
  | RESULT_ORDER_DIFFERS
  | JAVA_EXTRA_RESULT
  | GO_EXTRA_RESULT
  | EXTERNAL_EXTRA_RESULT
  | THREE_WAY_SPLIT
  | TWO_VS_ONE
  deriving DecidableEq, Repr

/-- A result entity as the analyzer reads it: a JSON object from which only the
fields `id` / `sourceID` / `uid` (identity) and `match` (score) are consulted.
`matchScore` models the `match` key (a keyword in Lean). -/
structure Entity where
  id : Option String := none
  sourceID : Option String := none
  uid : Option String := none
  matchScore : Option ℚ := none
  deriving DecidableEq, Repr

/-- The `Divergence` dataclass. The human-readable `description` f-string and
the `java_trace` debugging payload are presentation-only and not modelled;
`dtype` models the field `type` (a keyword in Lean). -/
structure Divergence where
  dtype : DivergenceType
  severity : String
  java_data : Option Entity := none
  go_data : Option Entity := none
  external_data : Option Entity := none
  score_difference : Option ℚ := none
  agreement_pattern : Option String := none
  deriving DecidableEq, Repr

/-- `ResultAnalyzer._get_entity_id`:
`entity.get("id") or entity.get("sourceID") or entity.get("uid")`. -/
def get_entity_id (e : Entity) : Option String :=
  pyOrStr e.id (pyOrStr e.sourceID e.uid)

/-- `ResultAnalyzer._get_entity_score`: `entity.get("match", 0.0)`. -/
def get_entity_score (e : Entity) : ℚ :=
  e.matchScore.getD 0

/-- Insert into a Python-dict model: overwrite in place when the key exists,
else append at the end (insertion order). -/
def dictInsert (k : String) (v : Entity) (d : List (String × Entity)) :
    List (String × Entity) :=
  if d.any (fun p => p.1 == k) then
    d.map (fun p => if p.1 == k then (k, v) else p)
  else
    d ++ [(k, v)]

/-- One step of the dict comprehension: add entity `r` under its extracted id
when that id is truthy, else skip it. -/
def insert_result (d : List (String × Entity)) (r : Entity) :
    List (String × Entity) :=
  match get_entity_id r with
  | some k => if k ≠ "" then dictInsert k r d else d
  | none => d

/-- The dict comprehension
`{self._get_entity_id(r): r for r in results if self._get_entity_id(r)}`:
keyed by extracted id, keeping only truthy ids. -/
def results_by_id (rs : List Entity) : List (String × Entity) :=
  rs.foldl insert_result []

/-- Python `dict` lookup on the association-list model. -/
def pyLookup {α : Type} (k : String) (d : List (String × α)) : Option α :=
  (d.find? (fun p => p.1 == k)).map (fun p => p.2)

/-- A `GO_EXTRA_RESULT` divergence (severity `"moderate"`). -/
def go_extra (e : Entity) : Divergence :=
  { dtype := .GO_EXTRA_RESULT, severity := "moderate", go_data := some e }

/-- A `JAVA_EXTRA_RESULT` divergence (severity `"moderate"`). -/
def java_extra (e : Entity) : Divergence :=
  { dtype := .JAVA_EXTRA_RESULT, severity := "moderate", java_data := some e }

/-- The `TOP_RESULT_DIFFERS` divergence (severity `"critical"`). -/
def top_result_div (jt gt : Entity) : Divergence :=
  { dtype := .TOP_RESULT_DIFFERS, severity := "critical",
    java_data := some jt, go_data := some gt }

/-- The score-comparison body of `ResultAnalyzer.compare` for one entity
present on both sides: thresholds 0.10 / 0.05 / 0.02 classify the absolute
score difference as critical / moderate / minor, below 0.02 nothing is
emitted. -/
def score_div_opt (je ge : Entity) : Option Divergence :=
  let java_score := je.matchScore.getD 0
  let go_score := ge.matchScore.getD 0
  let score_diff := |java_score - go_score|
  if score_diff > 1/10 then
    some { dtype := .SCORE_DIFFERENCE, severity := "critical",
           java_data := some je, go_data := some ge,
           score_difference := some score_diff }
  else if score_diff > 1/20 then
    some { dtype := .SCORE_DIFFERENCE, severity := "moderate",
           java_data := some je, go_data := some ge,
           score_difference := some score_diff }
  else if score_diff > 1/50 then
    some { dtype := .SCORE_DIFFERENCE, severity := "minor",
           java_data := some je, go_data := some ge,
           score_difference := some score_diff }
  else
    none

/-- Body of the score-comparison loop: for one `java_by_id` item, emit the
score divergence when the same id is present in `go_by_id`. -/
def score_divs_fn (go_by_id : List (String × Entity)) (p : String × Entity) :
    Option Divergence :=
  match pyLookup p.1 go_by_id with
  | some ge => score_div_opt p.2 ge
  | none => none

/-- Body of the Java-only loop: emit `JAVA_EXTRA_RESULT` when the id is absent
from `go_by_id`. -/
def java_only_fn (go_by_id : List (String × Entity)) (p : String × Entity) :
    Option Divergence :=
  if (pyLookup p.1 go_by_id).isNone then some (java_extra p.2) else none

/-- Body of the Go-only loop: emit `GO_EXTRA_RESULT` when the id is absent
from `java_by_id`. -/
def go_only_fn (java_by_id : List (String × Entity)) (p : String × Entity) :
    Option Divergence :=
  if (pyLookup p.1 java_by_id).isNone then some (go_extra p.2) else none

/-- `ResultAnalyzer.compare`: empty-side handling, top-result comparison,
per-id score comparison, then one-sided extras, appended in source order. -/
def compare (java_results go_results : List Entity) : List Divergence :=
  match java_results, go_results with
  | [], [] => []
  | [], g₀ :: gs => (g₀ :: gs).map go_extra
  | j₀ :: js, [] => (j₀ :: js).map java_extra
  | j₀ :: js, g₀ :: gs =>
    let java_by_id := results_by_id (j₀ :: js)
    let go_by_id := results_by_id (g₀ :: gs)
    (if get_entity_id j₀ ≠ get_entity_id g₀ then [top_result_div j₀ g₀] else [])
      ++ java_by_id.filterMap (score_divs_fn go_by_id)
      ++ java_by_id.filterMap (java_only_fn go_by_id)
      ++ go_by_id.filterMap (go_only_fn java_by_id)

/-! ### Lemmas about the shapes of emitted divergences -/

theorem score_div_opt_shape {je ge : Entity} {d : Divergence}
    (h : score_div_opt je ge = some d) :
    d.dtype = .SCORE_DIFFERENCE ∧ d.java_data = some je ∧ d.go_data = some ge := by
  simp only [score_div_opt] at h
  split_ifs at h
  all_goals simp_all
  all_goals (cases h; exact ⟨rfl, rfl, rfl⟩)

theorem score_divs_fn_shape {g : List (String × Entity)} {p : String × Entity}
    {d : Divergence} (h : score_divs_fn g p = some d) :
    d.dtype = .SCORE_DIFFERENCE ∧ d.java_data = some p.2 := by
  unfold score_divs_fn at h
  split at h
  · exact ⟨(score_div_opt_shape h).1, (score_div_opt_shape h).2.1⟩
  · exact absurd h (by simp)

theorem java_only_fn_shape {g : List (String × Entity)} {p : String × Entity}
    {d : Divergence} (h : java_only_fn g p = some d) : d = java_extra p.2 := by
  unfold java_only_fn at h
  split_ifs at h
  all_goals simp_all

theorem go_only_fn_shape {g : List (String × Entity)} {p : String × Entity}
    {d : Divergence} (h : go_only_fn g p = some d) : d = go_extra p.2 := by
  unfold go_only_fn at h
  split_ifs at h
  all_goals simp_all

theorem countP_filterMap_zero {α : Type} {f : α → Option Divergence}
    {l : List α} {p : Divergence → Bool}
    (h : ∀ a ∈ l, ∀ d, f a = some d → p d = false) :
    (l.filterMap f).countP p = 0 := by
  rw [List.countP_eq_zero]
  intro d hd
  rw [List.mem_filterMap] at hd
  obtain ⟨a, ha, hfa⟩ := hd
  simp [h a ha d hfa]

/-! ### Invariants of the id-keyed dict model -/

/-- Entries of the dict after an insertion: the inserted pair or an old one. -/
theorem mem_dictInsert {k : String} {v : Entity} {d : List (String × Entity)}
    {p : String × Entity} (h : p ∈ dictInsert k v d) : p = (k, v) ∨ p ∈ d := by
  unfold dictInsert at h
  split_ifs at h with hk
  · rw [List.mem_map] at h
    obtain ⟨q, hq, he⟩ := h
    by_cases hqk : q.1 == k
    · left; rw [if_pos hqk] at he; exact he.symm
    · right; rw [if_neg hqk] at he; exact he ▸ hq
  · rw [List.mem_append] at h
    rcases h with h | h
    · right; exact h
    · left; simpa using h

/-- Replacing an existing key leaves the key list unchanged. -/
theorem keys_dictInsert_of_mem {k : String} {v : Entity}
    {d : List (String × Entity)} (h : d.any (fun p => p.1 == k)) :
    (dictInsert k v d).map Prod.fst = d.map Prod.fst := by
  unfold dictInsert
  rw [if_pos h, List.map_map]
  apply List.map_congr_left
  intro q _
  by_cases hqk : q.1 == k
  · simp only [Function.comp_apply, if_pos hqk]
    exact (eq_of_beq hqk).symm
  · simp only [Function.comp_apply, if_neg hqk]

/-- Inserting a fresh key appends it to the key list. -/
theorem keys_dictInsert_of_not_mem {k : String} {v : Entity}
    {d : List (String × Entity)} (h : ¬ d.any (fun p => p.1 == k)) :
    (dictInsert k v d).map Prod.fst = d.map Prod.fst ++ [k] := by
  unfold dictInsert
  rw [if_neg h, List.map_append]
  rfl

/-- The well-formedness invariant of an id-keyed dict: every stored entity has
the truthy id it is keyed under, and keys are unique. -/
def DictInv (d : List (String × Entity)) : Prop :=
  (∀ p ∈ d, get_entity_id p.2 = some p.1 ∧ p.1 ≠ "") ∧ (d.map Prod.fst).Nodup

theorem dictInsert_inv {k : String} {v : Entity} {d : List (String × Entity)}
    (hd : DictInv d) (hv : get_entity_id v = some k) (hk : k ≠ "") :
    DictInv (dictInsert k v d) := by
  obtain ⟨hent, hnd⟩ := hd
  constructor
  · intro p hp
    rcases mem_dictInsert hp with h | h
    · rw [h]; exact ⟨hv, hk⟩
    · exact hent p h
  · by_cases hmem : d.any (fun p => p.1 == k)
    · rw [keys_dictInsert_of_mem hmem]; exact hnd
    · rw [keys_dictInsert_of_not_mem hmem]
      rw [List.nodup_append]
      refine ⟨hnd, List.nodup_singleton k, ?_⟩
      intro a ha hb
      rw [List.mem_singleton] at hb
      subst hb
      rw [List.mem_map] at ha
      obtain ⟨q, hq, hqa⟩ := ha
      rw [List.any_eq_true] at hmem
      push_neg at hmem
      exact absurd (by simp [hqa]) (hmem q hq)

theorem insert_result_inv {d : List (String × Entity)} (hd : DictInv d)
    (r : Entity) : DictInv (insert_result d r) := by
  unfold insert_result
  split
  · split_ifs with hk
    · exact dictInsert_inv hd (by assumption) hk
    · exact hd
  · exact hd

theorem foldl_insert_result_inv (rs : List Entity) :
    ∀ d : List (String × Entity), DictInv d →
      DictInv (rs.foldl insert_result d) := by
  induction rs with
  | nil => intro d hd; exact hd
  | cons r rest ih =>
    intro d hd
    exact ih _ (insert_result_inv hd r)

/-- `results_by_id` always satisfies the dict invariant. -/
theorem results_by_id_inv (rs : List Entity) : DictInv (results_by_id rs) := by
  unfold results_by_id
  exact foldl_insert_result_inv rs [] ⟨by simp, by simp⟩

/-- Dict lookup agrees with membership when keys are unique. -/
theorem pyLookup_eq_some_iff {α : Type} {k : String} {d : List (String × α)}
    {e : α} (hnd : (d.map Prod.fst).Nodup) :
    pyLookup k d = some e ↔ (k, e) ∈ d := by
  induction d with
  | nil => simp [pyLookup]
  | cons q rest ih =>
    rw [List.map_cons, List.nodup_cons] at hnd
    obtain ⟨hq, hrest⟩ := hnd
    by_cases hqk : q.1 = k
    · rw [pyLookup, List.find?_cons_of_pos _ (by simp [hqk])]
      simp only [Option.map_some, List.mem_cons]
      constructor
      · intro h
        left
        have he : q.2 = e := by simpa using h
        rw [← he, ← hqk]
      · intro h
        rcases h with h | h
        · simp [← h]
        · exact absurd (List.mem_map.mpr ⟨(k, e), h, hqk.symm⟩) hq
    · rw [pyLookup, List.find?_cons_of_neg _ (by simp [hqk])]
      rw [show Option.map (fun p => p.2) (List.find? (fun p => p.1 == k) rest)
            = pyLookup k rest from rfl]
      rw [ih hrest, List.mem_cons]
      constructor
      · intro h; right; exact h
      · rintro (h | h)
        · exact absurd (congrArg Prod.fst h.symm) hqk
        · exact h

/-- `compare` on two non-empty lists, unfolded. -/
theorem compare_cons_cons (j₀ g₀ : Entity) (js gs : List Entity) :
    compare (j₀ :: js) (g₀ :: gs) =
      (if get_entity_id j₀ ≠ get_entity_id g₀ then [top_result_div j₀ g₀] else [])
        ++ (results_by_id (j₀ :: js)).filterMap
            (score_divs_fn (results_by_id (g₀ :: gs)))
        ++ (results_by_id (j₀ :: js)).filterMap
            (java_only_fn (results_by_id (g₀ :: gs)))
        ++ (results_by_id (g₀ :: gs)).filterMap
            (go_only_fn (results_by_id (j₀ :: js))) := rfl

/-- None of the score-difference / one-sided chunks of `compare` can satisfy a
predicate that requires a `TOP_RESULT_DIFFERS` type. -/
theorem countP_nontop_chunks (p : Divergence → Bool)
    (hp : ∀ d, d.dtype ≠ DivergenceType.TOP_RESULT_DIFFERS → p d = false)
    (g l : List (String × Entity)) :
    (l.filterMap (score_divs_fn g)).countP p = 0 ∧
    (l.filterMap (java_only_fn g)).countP p = 0 ∧
    (l.filterMap (go_only_fn g)).countP p = 0 := by
  refine ⟨?_, ?_, ?_⟩
  · apply countP_filterMap_zero
    intro a _ d hd
    exact hp d (by rw [(score_divs_fn_shape hd).1]; simp)
  · apply countP_filterMap_zero
    intro a _ d hd
    exact hp d (by rw [java_only_fn_shape hd]; simp [java_extra])
  · apply countP_filterMap_zero
    intro a _ d hd
    exact hp d (by rw [go_only_fn_shape hd]; simp [go_extra])

/-- C1: with both result lists non-empty, `compare` emits no
`TOP_RESULT_DIFFERS` divergence when the two extracted top-entity ids agree,
and exactly one such divergence — with severity `"critical"` — when they
differ. -/
theorem compare_top_result_behaviour (jt gt : Entity) (jr gr : List Entity) :
    (get_entity_id jt = get_entity_id gt →
      (compare (jt :: jr) (gt :: gr)).countP
        (fun d => decide (d.dtype = DivergenceType.TOP_RESULT_DIFFERS)) = 0) ∧
    (get_entity_id jt ≠ get_entity_id gt →
      (compare (jt :: jr) (gt :: gr)).countP
        (fun d => decide (d.dtype = DivergenceType.TOP_RESULT_DIFFERS)) = 1 ∧
      (compare (jt :: jr) (gt :: gr)).countP
        (fun d => decide (d.dtype = DivergenceType.TOP_RESULT_DIFFERS ∧
                          d.severity = "critical")) = 1) := by
  have hpTop : ∀ d : Divergence, d.dtype ≠ DivergenceType.TOP_RESULT_DIFFERS →
      (decide (d.dtype = DivergenceType.TOP_RESULT_DIFFERS)) = false := by
    intro d hd; simp [hd]
  have hpTopCrit : ∀ d : Divergence, d.dtype ≠ DivergenceType.TOP_RESULT_DIFFERS →
      (decide (d.dtype = DivergenceType.TOP_RESULT_DIFFERS ∧
               d.severity = "critical")) = false := by
    intro d hd; simp [hd]
  constructor
  · intro heq
    rw [compare_cons_cons, if_neg (fun h => h heq), List.nil_append,
        List.countP_append, List.countP_append]
    obtain ⟨h1, h2, h3⟩ := countP_nontop_chunks _ hpTop
      (results_by_id (gt :: gr)) (results_by_id (jt :: jr))
    obtain ⟨-, -, h4⟩ := countP_nontop_chunks _ hpTop
      (results_by_id (jt :: jr)) (results_by_id (gt :: gr))
    rw [h1, h2, h4]
  · intro hne
    obtain ⟨h1, h2, h3⟩ := countP_nontop_chunks _ hpTop
      (results_by_id (gt :: gr)) (results_by_id (jt :: jr))
    obtain ⟨-, -, h4⟩ := countP_nontop_chunks _ hpTop
      (results_by_id (jt :: jr)) (results_by_id (gt :: gr))
    obtain ⟨g1, g2, g3⟩ := countP_nontop_chunks _ hpTopCrit
      (results_by_id (gt :: gr)) (results_by_id (jt :: jr))
    obtain ⟨-, -, g4⟩ := countP_nontop_chunks _ hpTopCrit
      (results_by_id (jt :: jr)) (results_by_id (gt :: gr))
    constructor
    · rw [compare_cons_cons, if_pos hne, List.countP_append, List.countP_append,
          List.countP_append, h1, h2, h4]
      simp [List.countP_cons, top_result_div]
    · rw [compare_cons_cons, if_pos hne, List.countP_append, List.countP_append,
          List.countP_append, g1, g2, g4]
      simp [List.countP_cons, top_result_div]

/-- Unfolding `score_div_opt` in the critical band (difference above 0.10). -/
theorem score_div_opt_crit {je ge : Entity}
    (h : |je.matchScore.getD 0 - ge.matchScore.getD 0| > 1/10) :
    score_div_opt je ge =
      some { dtype := .SCORE_DIFFERENCE, severity := "critical",
             java_data := some je, go_data := some ge,
             score_difference := some |je.matchScore.getD 0 - ge.matchScore.getD 0| } := by
  simp only [score_div_opt]
  rw [if_pos h]

/-- Unfolding `score_div_opt` in the moderate band (difference in (0.05, 0.10]). -/
theorem score_div_opt_mod {je ge : Entity}
    (h1 : ¬ |je.matchScore.getD 0 - ge.matchScore.getD 0| > 1/10)
    (h2 : |je.matchScore.getD 0 - ge.matchScore.getD 0| > 1/20) :
    score_div_opt je ge =
      some { dtype := .SCORE_DIFFERENCE, severity := "moderate",
             java_data := some je, go_data := some ge,
             score_difference := some |je.matchScore.getD 0 - ge.matchScore.getD 0| } := by
  simp only [score_div_opt]
  rw [if_neg h1, if_pos h2]

/-- Entries keyed away from `s` contribute no score divergence attributed to
the entity stored under `s`. -/
theorem countP_score_sev_away (g : List (String × Entity)) (s sev : String)
    (je : Entity) (hje : get_entity_id je = some s)
    (l : List (String × Entity))
    (hl : ∀ p ∈ l, get_entity_id p.2 = some p.1)
    (hne : ∀ p ∈ l, p.1 ≠ s) :
    (l.filterMap (score_divs_fn g)).countP
      (fun d => decide (d.dtype = DivergenceType.SCORE_DIFFERENCE ∧
                        d.severity = sev ∧ d.java_data = some je)) = 0 := by
  apply countP_filterMap_zero
  intro a ha d hd
  have hshape := score_divs_fn_shape hd
  simp only [decide_eq_false_iff_not]
  rintro ⟨-, -, hjd⟩
  rw [hshape.2] at hjd
  have hae : a.2 = je := by injection hjd
  have h1 := hl a ha
  rw [hae, hje] at h1
  have : s = a.1 := by injection h1
  exact hne a ha this.symm

/-- Exactly one score divergence of the given severity is attributed to the
entity stored under key `s`, when `score_div_opt` fires for that key. -/
theorem countP_score_sev (g : List (String × Entity)) (s : String)
    (je ge : Entity) (dv : Divergence) (hdv : score_div_opt je ge = some dv)
    (hge : pyLookup s g = some ge) (hje : get_entity_id je = some s) :
    ∀ l : List (String × Entity),
      (∀ p ∈ l, get_entity_id p.2 = some p.1) → (l.map Prod.fst).Nodup →
      (s, je) ∈ l →
      (l.filterMap (score_divs_fn g)).countP
        (fun d => decide (d.dtype = DivergenceType.SCORE_DIFFERENCE ∧
                          d.severity = dv.severity ∧ d.java_data = some je)) = 1 := by
  intro l
  induction l with
  | nil =>
    intro _ _ hmem
    cases hmem
  | cons q rest ih =>
    intro hent hnd hmem
    rw [List.map_cons, List.nodup_cons] at hnd
    obtain ⟨hq, hrest⟩ := hnd
    have hent_rest : ∀ p ∈ rest, get_entity_id p.2 = some p.1 :=
      fun p hp => hent p (List.mem_cons_of_mem q hp)
    by_cases hqs : q.1 = s
    · have hq2 : q = (s, je) := by
        rcases List.mem_cons.mp hmem with h | h
        · exact h.symm
        · exact absurd (List.mem_map.mpr ⟨(s, je), h, rfl⟩) (hqs ▸ hq)
      have hfn : score_divs_fn g q = some dv := by
        unfold score_divs_fn
        rw [hq2]
        rw [show pyLookup (s, je).1 g = some ge from hge]
        exact hdv
      simp only [List.filterMap_cons, hfn, List.countP_cons]
      have hrest0 := countP_score_sev_away g s dv.severity je hje rest hent_rest
        (by
          intro p hp hps
          exact (hqs ▸ hq) (List.mem_map.mpr ⟨p, hp, hps⟩))
      rw [hrest0]
      have hsh := score_div_opt_shape hdv
      simp [hsh.1, hsh.2.1]
    · have hmem' : (s, je) ∈ rest := by
        rcases List.mem_cons.mp hmem with h | h
        · exact absurd (congrArg Prod.fst h.symm) hqs
        · exact h
      have hih := ih hent_rest hrest hmem'
      cases hfq : score_divs_fn g q with
      | none => simp only [List.filterMap_cons, hfq]; exact hih
      | some d =>
        simp only [List.filterMap_cons, hfq, List.countP_cons, hih]
        have hshape := score_divs_fn_shape hfq
        have hpd : (decide (d.dtype = DivergenceType.SCORE_DIFFERENCE ∧
            d.severity = dv.severity ∧ d.java_data = some je)) = false := by
          simp only [decide_eq_false_iff_not]
          rintro ⟨-, -, hjd⟩
          rw [hshape.2] at hjd
          have hae : q.2 = je := by injection hjd
          have h1 := hent q (List.mem_cons_self q rest)
          rw [hae, hje] at h1
          exact hqs (by injection h1 with h2; exact h2.symm)
        rw [hpd]
        simp

/-- C2: for an entity id present in both id-keyed result maps, `compare`
classifies the absolute score difference — above 0.10 critical, in
(0.05, 0.10] moderate — and emits exactly one `SCORE_DIFFERENCE` divergence of
that severity attributed to that entity. -/
theorem compare_score_difference_classification
    (J G : List Entity) (s : String) (je ge : Entity)
    (hj : pyLookup s (results_by_id J) = some je)
    (hg : pyLookup s (results_by_id G) = some ge) :
    (|je.matchScore.getD 0 - ge.matchScore.getD 0| > 1/10 →
      (compare J G).countP
        (fun d => decide (d.dtype = DivergenceType.SCORE_DIFFERENCE ∧
                          d.severity = "critical" ∧ d.java_data = some je)) = 1) ∧
    (1/20 < |je.matchScore.getD 0 - ge.matchScore.getD 0| ∧
        |je.matchScore.getD 0 - ge.matchScore.getD 0| ≤ 1/10 →
      (compare J G).countP
        (fun d => decide (d.dtype = DivergenceType.SCORE_DIFFERENCE ∧
                          d.severity = "moderate" ∧ d.java_data = some je)) = 1) := by
  match J, G with
  | [], _ => simp [results_by_id, pyLookup] at hj
  | _ :: _, [] => simp [results_by_id, pyLookup] at hg
  | jt :: jr, gt :: gr =>
    obtain ⟨hentJ, hndJ⟩ := results_by_id_inv (jt :: jr)
    obtain ⟨hentG, hndG⟩ := results_by_id_inv (gt :: gr)
    have hmemJ : (s, je) ∈ results_by_id (jt :: jr) :=
      (pyLookup_eq_some_iff hndJ).mp hj
    have hje : get_entity_id je = some s := (hentJ _ hmemJ).1
    have hcount : ∀ dv : Divergence, score_div_opt je ge = some dv →
        (compare (jt :: jr) (gt :: gr)).countP
          (fun d => decide (d.dtype = DivergenceType.SCORE_DIFFERENCE ∧
                            d.severity = dv.severity ∧ d.java_data = some je)) = 1 := by
      intro dv hdv
      rw [compare_cons_cons, List.countP_append, List.countP_append,
          List.countP_append]
      have htop : (if get_entity_id jt ≠ get_entity_id gt
          then [top_result_div jt gt] else []).countP
          (fun d => decide (d.dtype = DivergenceType.SCORE_DIFFERENCE ∧
                            d.severity = dv.severity ∧ d.java_data = some je)) = 0 := by
        split_ifs
        · simp [List.countP_cons, top_result_div]
        · simp
      have hjo : ((results_by_id (jt :: jr)).filterMap
          (java_only_fn (results_by_id (gt :: gr)))).countP
          (fun d => decide (d.dtype = DivergenceType.SCORE_DIFFERENCE ∧
                            d.severity = dv.severity ∧ d.java_data = some je)) = 0 := by
        apply countP_filterMap_zero
        intro a _ d hd
        rw [java_only_fn_shape hd]
        simp [java_extra]
      have hgo : ((results_by_id (gt :: gr)).filterMap
          (go_only_fn (results_by_id (jt :: jr)))).countP
          (fun d => decide (d.dtype = DivergenceType.SCORE_DIFFERENCE ∧
                            d.severity = dv.severity ∧ d.java_data = some je)) = 0 := by
        apply countP_filterMap_zero
        intro a _ d hd
        rw [go_only_fn_shape hd]
        simp [go_extra]
      have hscore := countP_score_sev (results_by_id (gt :: gr)) s je ge dv hdv
        hg hje (results_by_id (jt :: jr)) (fun p hp => (hentJ p hp).1) hndJ hmemJ
      rw [htop, hscore, hjo, hgo]
    constructor
    · intro hcrit
      exact hcount _ (score_div_opt_crit hcrit)
    · rintro ⟨hlo, hhi⟩
      exact hcount _ (score_div_opt_mod (by push_neg; exact hhi) hlo)

/-- Witness for C1 at concrete inputs: equal top ids `"a"`/`"a"`, then
differing top ids `"a"`/`"b"`. -/
theorem compare_top_result_behaviour_witness :
    (compare [{ id := some "a" }] [{ id := some "a" }]).countP
      (fun d => decide (d.dtype = DivergenceType.TOP_RESULT_DIFFERS)) = 0 ∧
    ((compare [{ id := some "a" }] [{ id := some "b" }]).countP
      (fun d => decide (d.dtype = DivergenceType.TOP_RESULT_DIFFERS)) = 1 ∧
     (compare [{ id := some "a" }] [{ id := some "b" }]).countP
      (fun d => decide (d.dtype = DivergenceType.TOP_RESULT_DIFFERS ∧
                        d.severity = "critical")) = 1) :=
  ⟨(compare_top_result_behaviour { id := some "a" } { id := some "a" } [] []).1 rfl,
   (compare_top_result_behaviour { id := some "a" } { id := some "b" } [] []).2
     (by decide)⟩

/-- Witness for C2 at concrete inputs: scores 1.0 vs 0.0 (difference 1.0,
critical) and 1.0 vs 0.92 (difference 0.08, moderate). -/
theorem compare_score_difference_classification_witness :
    (compare [{ id := some "x", matchScore := some 1 }]
             [{ id := some "x", matchScore := some 0 }]).countP
      (fun d => decide (d.dtype = DivergenceType.SCORE_DIFFERENCE ∧
                        d.severity = "critical" ∧
                        d.java_data =
                          some { id := some "x", matchScore := some 1 })) = 1 ∧
    (compare [{ id := some "y", matchScore := some 1 }]
             [{ id := some "y", matchScore := some (23/25) }]).countP
      (fun d => decide (d.dtype = DivergenceType.SCORE_DIFFERENCE ∧
                        d.severity = "moderate" ∧
                        d.java_data =
                          some { id := some "y", matchScore := some 1 })) = 1 :=
  ⟨(compare_score_difference_classification
      [{ id := some "x", matchScore := some 1 }]
      [{ id := some "x", matchScore := some 0 }] "x"
      { id := some "x", matchScore := some 1 }
      { id := some "x", matchScore := some 0 } rfl rfl).1
      (by simp only [Option.getD_some]; norm_num),
   (compare_score_difference_classification
      [{ id := some "y", matchScore := some 1 }]
      [{ id := some "y", matchScore := some (23/25) }] "y"
      { id := some "y", matchScore := some 1 }
      { id := some "y", matchScore := some (23/25) } rfl rfl).2
      (by
        simp only [Option.getD_some]
        rw [show |(1:ℚ) - 23/25| = 2/25 by
          rw [abs_of_nonneg (by norm_num : (0:ℚ) ≤ 1 - 23/25)]; norm_num]
        norm_num)⟩

/-! ## coverage_tracker.py -/

/-- Per-entity statistics, from the dict created in `record_test`.
`last_tested` is `None` on creation and set on every recording. -/
structure EntityStats where
  entity_name : String
  test_count : Nat
  first_tested : String
  last_tested : Option String
  deriving DecidableEq, Repr

/-- The persistent coverage state, from `_load_state` / the JSON document.
`entity_stats` is a Python dict keyed by entity id. -/
structure CoverageState where
  total_ofac_entities : Nat
  entities_tested : Nat
  tested_entity_ids : List String
  entity_stats : List (String × EntityStats)
  last_updated : Option String
  deriving DecidableEq, Repr

/-- The freshly initialized state from `_load_state` when no file exists. -/
def init_state (total_entities : Nat) : CoverageState :=
  { total_ofac_entities := total_entities
    entities_tested := 0
    tested_entity_ids := []
    entity_stats := []
    last_updated := none }

/-- `CoverageTracker.record_test`. The source calls `datetime.now()` twice —
once for `first_tested` of a fresh stats entry, once for `last_tested` — so
the two wall-clock reads are the parameters `now_first` and `now_last`. -/
def record_test (st : CoverageState) (entity_id entity_name : String)
    (now_first now_last : String) : CoverageState :=
  let tested :=
    if entity_id ∈ st.tested_entity_ids then st.tested_entity_ids
    else st.tested_entity_ids ++ [entity_id]
  let stats0 :=
    if (pyLookup entity_id st.entity_stats).isNone then
      st.entity_stats ++
        [(entity_id,
          { entity_name := entity_name, test_count := 0,
            first_tested := now_first, last_tested := none })]
    else st.entity_stats
  let stats1 := stats0.map (fun p =>
    if p.1 == entity_id then
      (p.1, { p.2 with test_count := p.2.test_count + 1,
                       last_tested := some now_last })
    else p)
  { st with tested_entity_ids := tested, entity_stats := stats1 }

/-- `CoverageTracker.save`: stamps `last_updated` and recomputes
`entities_tested` from the tested-id list before the state is written out;
the returned state is exactly the persisted JSON document. -/
def save (st : CoverageState) (now : String) : CoverageState :=
  { st with last_updated := some now,
            entities_tested := st.tested_entity_ids.length }

/-- `CoverageTracker.coverage_percentage`; `total_entities` is the tracker
attribute fixed at construction. -/
def coverage_percentage (total_entities : Nat) (st : CoverageState) : ℚ :=
  if total_entities = 0 then 0
  else ((st.tested_entity_ids.length : ℚ) / total_entities) * 100

/-- One `record_test` invocation as data: the entity and the two wall-clock
reads made during the call. -/
structure RecordCall where
  entity_id : String
  entity_name : String
  now_first : String
  now_last : String
  deriving DecidableEq, Repr

/-- A sequence of `record_test` calls applied in order. -/
def run_tests (st : CoverageState) (calls : List RecordCall) : CoverageState :=
  calls.foldl
    (fun s c => record_test s c.entity_id c.entity_name c.now_first c.now_last)
    st

/-! ### Coverage bookkeeping lemmas -/

theorem record_test_tested_toFinset (st : CoverageState)
    (i n t1 t2 : String) :
    (record_test st i n t1 t2).tested_entity_ids.toFinset =
      st.tested_entity_ids.toFinset ∪ {i} := by
  unfold record_test
  simp only
  split_ifs with h
  · rw [Finset.union_eq_left.mpr
      (Finset.singleton_subset_iff.mpr (List.mem_toFinset.mpr h))]
  · rw [List.toFinset_append]
    rfl

theorem record_test_tested_nodup (st : CoverageState) (i n t1 t2 : String)
    (h : st.tested_entity_ids.Nodup) :
    (record_test st i n t1 t2).tested_entity_ids.Nodup := by
  unfold record_test
  simp only
  split_ifs with hmem
  · exact h
  · rw [List.nodup_append]
    refine ⟨h, List.nodup_singleton i, ?_⟩
    intro a ha hb
    rw [List.mem_singleton] at hb
    subst hb
    exact hmem ha

theorem run_tests_tested_toFinset (calls : List RecordCall) :
    ∀ st : CoverageState,
      (run_tests st calls).tested_entity_ids.toFinset =
        st.tested_entity_ids.toFinset ∪
          (calls.map RecordCall.entity_id).toFinset := by
  induction calls with
  | nil => intro st; simp [run_tests]
  | cons c rest ih =>
    intro st
    show (run_tests (record_test st c.entity_id c.entity_name c.now_first
      c.now_last) rest).tested_entity_ids.toFinset = _
    rw [ih, record_test_tested_toFinset, List.map_cons, List.toFinset_cons,
        Finset.insert_eq, Finset.union_assoc]

theorem run_tests_tested_nodup (calls : List RecordCall) :
    ∀ st : CoverageState, st.tested_entity_ids.Nodup →
      (run_tests st calls).tested_entity_ids.Nodup := by
  induction calls with
  | nil => intro st h; exact h
  | cons c rest ih =>
    intro st h
    exact ih _ (record_test_tested_nodup st _ _ _ _ h)

/-- The number of distinct tested ids after a call sequence from a fresh
tracker is the number of distinct ids in the calls. -/
theorem run_tests_tested_length (total : Nat) (calls : List RecordCall) :
    (run_tests (init_state total) calls).tested_entity_ids.length =
      (calls.map RecordCall.entity_id).toFinset.card := by
  rw [← List.toFinset_card_of_nodup
    (run_tests_tested_nodup calls (init_state total) (by simp [init_state]))]
  rw [run_tests_tested_toFinset]
  simp [init_state]

/-- C3: from a freshly initialized tracker, any sequence of `record_test`
calls yields coverage `(distinct tested ids / total) * 100`, and the coverage
does not depend on the order of the calls. -/
theorem coverage_percentage_record_order_independent (total : Nat)
    (calls calls2 : List RecordCall) :
    (total ≠ 0 →
      coverage_percentage total (run_tests (init_state total) calls) =
        (((calls.map RecordCall.entity_id).toFinset.card : ℚ) / total) * 100) ∧
    (calls.Perm calls2 →
      coverage_percentage total (run_tests (init_state total) calls) =
        coverage_percentage total (run_tests (init_state total) calls2)) := by
  constructor
  · intro htot
    rw [coverage_percentage, if_neg htot, run_tests_tested_length]
  · intro hperm
    unfold coverage_percentage
    split_ifs with htot
    · rfl
    · rw [run_tests_tested_length, run_tests_tested_length,
          List.toFinset_eq_of_perm _ _ (hperm.map RecordCall.entity_id)]

/-- Witness for C3: two records of the same entity in both orders give 20%
coverage of 5 entities. -/
theorem coverage_percentage_record_order_independent_witness :
    coverage_percentage 5 (run_tests (init_state 5)
        [⟨"SDN-1", "Alpha", "t1", "t1"⟩, ⟨"SDN-1", "Alpha", "t2", "t2"⟩]) =
      ((([⟨"SDN-1", "Alpha", "t1", "t1"⟩, ⟨"SDN-1", "Alpha", "t2", "t2"⟩] :
          List RecordCall).map RecordCall.entity_id).toFinset.card : ℚ) / 5
        * 100 ∧
    coverage_percentage 5 (run_tests (init_state 5)
        [⟨"SDN-1", "Alpha", "t1", "t1"⟩, ⟨"SDN-1", "Alpha", "t2", "t2"⟩]) =
      coverage_percentage 5 (run_tests (init_state 5)
        [⟨"SDN-1", "Alpha", "t2", "t2"⟩, ⟨"SDN-1", "Alpha", "t1", "t1"⟩]) :=
  ⟨(coverage_percentage_record_order_independent 5
      [⟨"SDN-1", "Alpha", "t1", "t1"⟩, ⟨"SDN-1", "Alpha", "t2", "t2"⟩]
      [⟨"SDN-1", "Alpha", "t2", "t2"⟩, ⟨"SDN-1", "Alpha", "t1", "t1"⟩]).1
      (by norm_num),
   (coverage_percentage_record_order_independent 5
      [⟨"SDN-1", "Alpha", "t1", "t1"⟩, ⟨"SDN-1", "Alpha", "t2", "t2"⟩]
      [⟨"SDN-1", "Alpha", "t2", "t2"⟩, ⟨"SDN-1", "Alpha", "t1", "t1"⟩]).2
      (List.Perm.swap _ _ _)⟩

/-- C4: after every `save`, the persisted document satisfies
`entities_tested == len(tested_entity_ids)`, whatever the in-memory counter
held before. -/
theorem save_entities_tested_invariant (st : CoverageState) (now : String) :
    (save st now).entities_tested = (save st now).tested_entity_ids.length :=
  rfl

/-- C10: `coverage_percentage` is total: zero total entities gives 0.0 rather
than a division error, and a positive total gives `tested/total * 100`. -/
theorem coverage_percentage_total_cases (total : Nat) (st : CoverageState) :
    (total = 0 → coverage_percentage total st = 0) ∧
    (0 < total → coverage_percentage total st =
      ((st.tested_entity_ids.length : ℚ) / total) * 100) := by
  constructor
  · intro h
    rw [coverage_percentage, if_pos h]
  · intro h
    rw [coverage_percentage, if_neg (Nat.pos_iff_ne_zero.mp h)]

/-- Witness for C10 at total 0 and total 4. -/
theorem coverage_percentage_total_cases_witness :
    coverage_percentage 0 (init_state 0) = 0 ∧
    coverage_percentage 4
        { init_state 4 with tested_entity_ids := ["a"] } =
      (((["a"] : List String).length : ℚ) / 4) * 100 :=
  ⟨(coverage_percentage_total_cases 0 (init_state 0)).1 rfl,
   (coverage_percentage_total_cases 4 _).2 (by norm_num)⟩

/-! ## query_executor.py — `_call_api` retry loop

The network is abstracted as a function from attempt number to the outcome of
that HTTP attempt: a response with a status code, a timeout, a connection
error, or any other raised exception (carrying its `str(e)` rendering). -/

/-- Outcome of one `requests.get` attempt inside `_call_api`. -/
inductive ApiAttempt where
  | response (status : Nat) (entities : List Entity)
      (traceData : Option String) (elapsedMs : ℚ)
  | timeout
  | connectionError
  | exception (msg : String)
  deriving DecidableEq, Repr

/-- The tuple `(results, elapsed_ms, error_message, trace_data)` that
`_call_api` returns. -/
structure CallApiResult where
  results : Option (List Entity)
  elapsedMs : Option ℚ
  error : Option String
  traceData : Option String
  deriving DecidableEq, Repr

/-- The `for attempt in range(max_retries)` loop of `_call_api`, from
iteration `attempt` on. Besides the returned tuple it records how many HTTP
attempts were made and the list of sleep durations taken (the source sleeps
`time.sleep(0.5)` before each retry). -/
def call_api_loop (net : Nat → ApiAttempt) (enable_trace : Bool)
    (max_retries attempt : Nat) : CallApiResult × Nat × List ℚ :=
  if _h : attempt < max_retries then
    match net attempt with
    | .response status entities traceData elapsedMs =>
      if status = 200 then
        (⟨some entities, some elapsedMs, none,
          if enable_trace then traceData else none⟩, 1, [])
      else if attempt = max_retries - 1 then
        (⟨none, none, some ("HTTP " ++ toString status), none⟩, 1, [])
      else
        let r := call_api_loop net enable_trace max_retries (attempt + 1)
        (r.1, r.2.1 + 1, (1/2 : ℚ) :: r.2.2)
    | .timeout =>
      if attempt = max_retries - 1 then
        (⟨none, none, some "Timeout", none⟩, 1, [])
      else
        let r := call_api_loop net enable_trace max_retries (attempt + 1)
        (r.1, r.2.1 + 1, (1/2 : ℚ) :: r.2.2)
    | .connectionError =>
      if attempt = max_retries - 1 then
        (⟨none, none, some "Connection error", none⟩, 1, [])
      else
        let r := call_api_loop net enable_trace max_retries (attempt + 1)
        (r.1, r.2.1 + 1, (1/2 : ℚ) :: r.2.2)
    | .exception msg =>
      if attempt = max_retries - 1 then
        (⟨none, none, some msg, none⟩, 1, [])
      else
        let r := call_api_loop net enable_trace max_retries (attempt + 1)
        (r.1, r.2.1 + 1, (1/2 : ℚ) :: r.2.2)
  else
    (⟨none, none, some "Max retries exceeded", none⟩, 0, [])
termination_by max_retries - attempt
decreasing_by all_goals omega

/-- `QueryExecutor._call_api`: the loop started at attempt 0. -/
def call_api (net : Nat → ApiAttempt) (enable_trace : Bool)
    (max_retries : Nat) : CallApiResult × Nat × List ℚ :=
  call_api_loop net enable_trace max_retries 0

/-- An attempt outcome that does not succeed (any non-200 response, timeout,
connection error, or exception). -/
def attempt_fails : ApiAttempt → Prop
  | .response status _ _ _ => status ≠ 200
  | _ => True

/-- The environment assumption that a raised exception renders to a non-empty
string (`str(e)` in the source). -/
def exception_msg_nonempty : ApiAttempt → Prop
  | .exception msg => msg ≠ ""
  | _ => True

theorem http_error_string_nonempty (t : String) : ("HTTP " ++ t) ≠ "" := by
  intro h
  have hl := congrArg String.length h
  rw [String.length_append] at hl
  have h5 : ("HTTP " : String).length = 5 := rfl
  rw [h5] at hl
  simp at hl

/-- Unfolding: loop exhausted (`attempt >= max_retries`). -/
theorem call_api_loop_stop {net : Nat → ApiAttempt} {et : Bool}
    {mr attempt : Nat} (h : ¬ attempt < mr) :
    call_api_loop net et mr attempt =
      (⟨none, none, some "Max retries exceeded", none⟩, 0, []) := by
  rw [call_api_loop, dif_neg h]

/-- Unfolding: the attempt yielded an HTTP response. -/
theorem call_api_loop_response {net : Nat → ApiAttempt} {et : Bool}
    {mr attempt status : Nat} {entities : List Entity}
    {traceData : Option String} {elapsedMs : ℚ} (h : attempt < mr)
    (hnet : net attempt = .response status entities traceData elapsedMs) :
    call_api_loop net et mr attempt =
      if status = 200 then
        (⟨some entities, some elapsedMs, none,
          if et then traceData else none⟩, 1, [])
      else if attempt = mr - 1 then
        (⟨none, none, some ("HTTP " ++ toString status), none⟩, 1, [])
      else
        ((call_api_loop net et mr (attempt + 1)).1,
         (call_api_loop net et mr (attempt + 1)).2.1 + 1,
         (1/2 : ℚ) :: (call_api_loop net et mr (attempt + 1)).2.2) := by
  rw [call_api_loop, dif_pos h, hnet]

/-- Unfolding: the attempt timed out. -/
theorem call_api_loop_timeout {net : Nat → ApiAttempt} {et : Bool}
    {mr attempt : Nat} (h : attempt < mr) (hnet : net attempt = .timeout) :
    call_api_loop net et mr attempt =
      if attempt = mr - 1 then
        (⟨none, none, some "Timeout", none⟩, 1, [])
      else
        ((call_api_loop net et mr (attempt + 1)).1,
         (call_api_loop net et mr (attempt + 1)).2.1 + 1,
         (1/2 : ℚ) :: (call_api_loop net et mr (attempt + 1)).2.2) := by
  rw [call_api_loop, dif_pos h, hnet]

/-- Unfolding: the attempt hit a connection error. -/
theorem call_api_loop_connection {net : Nat → ApiAttempt} {et : Bool}
    {mr attempt : Nat} (h : attempt < mr)
    (hnet : net attempt = .connectionError) :
    call_api_loop net et mr attempt =
      if attempt = mr - 1 then
        (⟨none, none, some "Connection error", none⟩, 1, [])
      else
        ((call_api_loop net et mr (attempt + 1)).1,
         (call_api_loop net et mr (attempt + 1)).2.1 + 1,
         (1/2 : ℚ) :: (call_api_loop net et mr (attempt + 1)).2.2) := by
  rw [call_api_loop, dif_pos h, hnet]

/-- Unfolding: the attempt raised some other exception. -/
theorem call_api_loop_exception {net : Nat → ApiAttempt} {et : Bool}
    {mr attempt : Nat} {msg : String} (h : attempt < mr)
    (hnet : net attempt = .exception msg) :
    call_api_loop net et mr attempt =
      if attempt = mr - 1 then
        (⟨none, none, some msg, none⟩, 1, [])
      else
        ((call_api_loop net et mr (attempt + 1)).1,
         (call_api_loop net et mr (attempt + 1)).2.1 + 1,
         (1/2 : ℚ) :: (call_api_loop net et mr (attempt + 1)).2.2) := by
  rw [call_api_loop, dif_pos h, hnet]

/-- Bookkeeping facts carried through one retry step. -/
theorem retry_step_props (cnt : Nat) (sl : List ℚ) {mr attempt : Nat}
    (hlt : attempt + 1 < mr) (b1 : cnt ≤ mr - (attempt + 1))
    (b2 : attempt + 1 < mr → 1 ≤ cnt) (b3 : sl.length = cnt - 1)
    (b4 : ∀ s ∈ sl, s = 1/2) :
    cnt + 1 ≤ mr - attempt ∧ 1 ≤ cnt + 1 ∧
    ((1/2 : ℚ) :: sl).length = (cnt + 1) - 1 ∧
    (∀ s ∈ (1/2 : ℚ) :: sl, s = 1/2) := by
  have h1 := b2 hlt
  refine ⟨by omega, by omega, by simp only [List.length_cons, b3]; omega, ?_⟩
  intro s hs
  rcases List.mem_cons.mp hs with h | h
  · exact h
  · exact b4 s h

theorem call_api_loop_props (net : Nat → ApiAttempt) (et : Bool) (mr : Nat) :
    ∀ n attempt, mr - attempt = n →
      (call_api_loop net et mr attempt).2.1 ≤ mr - attempt ∧
      (attempt < mr → 1 ≤ (call_api_loop net et mr attempt).2.1) ∧
      (call_api_loop net et mr attempt).2.2.length =
        (call_api_loop net et mr attempt).2.1 - 1 ∧
      (∀ s ∈ (call_api_loop net et mr attempt).2.2, s = 1/2) ∧
      ((∀ i, attempt ≤ i → i < mr → attempt_fails (net i)) →
       (∀ i, exception_msg_nonempty (net i)) →
       (call_api_loop net et mr attempt).1.results = none ∧
       (call_api_loop net et mr attempt).1.elapsedMs = none ∧
       ∃ e, (call_api_loop net et mr attempt).1.error = some e ∧ e ≠ "") := by
  intro n
  induction n with
  | zero =>
    intro attempt hback
    have hge : ¬ attempt < mr := by omega
    rw [call_api_loop_stop hge]
    exact ⟨Nat.zero_le _, fun hc => absurd hc hge, rfl, by simp,
      fun _ _ => ⟨rfl, rfl, "Max retries exceeded", rfl, by decide⟩⟩
  | succ n ih =>
    intro attempt hback
    have hlt : attempt < mr := by omega
    have ihnext := ih (attempt + 1) (by omega)
    cases hnet : net attempt with
    | response status entities traceData elapsedMs =>
      by_cases h200 : status = 200
      · rw [call_api_loop_response hlt hnet, if_pos h200]
        refine ⟨(by omega : 1 ≤ mr - attempt), fun _ => le_refl 1, rfl,
          by simp, ?_⟩
        intro hf _
        exact absurd h200 (by
          have hat := hf attempt (le_refl attempt) hlt
          rw [hnet] at hat
          exact hat)
      · rw [call_api_loop_response hlt hnet, if_neg h200]
        by_cases hlast : attempt = mr - 1
        · rw [if_pos hlast]
          exact ⟨(by omega : 1 ≤ mr - attempt), fun _ => le_refl 1, rfl,
            by simp, fun _ _ => ⟨rfl, rfl, "HTTP " ++ toString status, rfl,
              http_error_string_nonempty _⟩⟩
        · rw [if_neg hlast]
          have hlt1 : attempt + 1 < mr := by omega
          obtain ⟨b1, b2, b3, b4, b5⟩ := ihnext
          obtain ⟨c1, c2, c3, c4⟩ := retry_step_props _ _ hlt1 b1 b2 b3 b4
          exact ⟨c1, fun _ => c2, c3, c4,
            fun hf he => b5 (fun i h1 h2 => hf i (by omega) h2) he⟩
    | timeout =>
      by_cases hlast : attempt = mr - 1
      · rw [call_api_loop_timeout hlt hnet, if_pos hlast]
        exact ⟨(by omega : 1 ≤ mr - attempt), fun _ => le_refl 1, rfl,
          by simp, fun _ _ => ⟨rfl, rfl, "Timeout", rfl, by decide⟩⟩
      · rw [call_api_loop_timeout hlt hnet, if_neg hlast]
        have hlt1 : attempt + 1 < mr := by omega
        obtain ⟨b1, b2, b3, b4, b5⟩ := ihnext
        obtain ⟨c1, c2, c3, c4⟩ := retry_step_props _ _ hlt1 b1 b2 b3 b4
        exact ⟨c1, fun _ => c2, c3, c4,
          fun hf he => b5 (fun i h1 h2 => hf i (by omega) h2) he⟩
    | connectionError =>
      by_cases hlast : attempt = mr - 1
      · rw [call_api_loop_connection hlt hnet, if_pos hlast]
        exact ⟨(by omega : 1 ≤ mr - attempt), fun _ => le_refl 1, rfl,
          by simp, fun _ _ => ⟨rfl, rfl, "Connection error", rfl, by decide⟩⟩
      · rw [call_api_loop_connection hlt hnet, if_neg hlast]
        have hlt1 : attempt + 1 < mr := by omega
        obtain ⟨b1, b2, b3, b4, b5⟩ := ihnext
        obtain ⟨c1, c2, c3, c4⟩ := retry_step_props _ _ hlt1 b1 b2 b3 b4
        exact ⟨c1, fun _ => c2, c3, c4,
          fun hf he => b5 (fun i h1 h2 => hf i (by omega) h2) he⟩
    | exception msg =>
      by_cases hlast : attempt = mr - 1
      · rw [call_api_loop_exception hlt hnet, if_pos hlast]
        refine ⟨(by omega : 1 ≤ mr - attempt), fun _ => le_refl 1, rfl,
          by simp, ?_⟩
        intro _ he
        refine ⟨rfl, rfl, msg, rfl, ?_⟩
        have hat := he attempt
        rw [hnet] at hat
        exact hat
      · rw [call_api_loop_exception hlt hnet, if_neg hlast]
        have hlt1 : attempt + 1 < mr := by omega
        obtain ⟨b1, b2, b3, b4, b5⟩ := ihnext
        obtain ⟨c1, c2, c3, c4⟩ := retry_step_props _ _ hlt1 b1 b2 b3 b4
        exact ⟨c1, fun _ => c2, c3, c4,
          fun hf he => b5 (fun i h1 h2 => hf i (by omega) h2) he⟩

/-- C5: `_call_api` makes at most `max_retries` HTTP attempts, pausing exactly
0.5 seconds between consecutive attempts (one fewer pause than attempts), and
when every attempt fails — non-200 response, timeout, connection error, or an
exception whose message is non-empty — it returns `None` results, `None`
elapsed time, and a non-empty error string rather than raising. -/
theorem call_api_retry_and_failure (net : Nat → ApiAttempt)
    (enable_trace : Bool) (max_retries : Nat) :
    (call_api net enable_trace max_retries).2.1 ≤ max_retries ∧
    (call_api net enable_trace max_retries).2.2.length =
      (call_api net enable_trace max_retries).2.1 - 1 ∧
    (∀ s ∈ (call_api net enable_trace max_retries).2.2, s = 1/2) ∧
    ((∀ i, i < max_retries → attempt_fails (net i)) →
     (∀ i, exception_msg_nonempty (net i)) →
     (call_api net enable_trace max_retries).1.results = none ∧
     (call_api net enable_trace max_retries).1.elapsedMs = none ∧
     ∃ e, (call_api net enable_trace max_retries).1.error = some e ∧ e ≠ "") := by
  obtain ⟨b1, b2, b3, b4, b5⟩ :=
    call_api_loop_props net enable_trace max_retries (max_retries - 0) 0 rfl
  refine ⟨by simpa using b1, b3, b4, ?_⟩
  intro hfail hexc
  exact b5 (fun i _ hi => hfail i hi) hexc

/-- Witness for C5: two attempts that both time out. -/
theorem call_api_retry_and_failure_witness :
    (call_api (fun _ => ApiAttempt.timeout) false 2).2.1 ≤ 2 ∧
    (call_api (fun _ => ApiAttempt.timeout) false 2).2.2.length =
      (call_api (fun _ => ApiAttempt.timeout) false 2).2.1 - 1 ∧
    (call_api (fun _ => ApiAttempt.timeout) false 2).1.results = none ∧
    (call_api (fun _ => ApiAttempt.timeout) false 2).1.elapsedMs = none ∧
    (call_api (fun _ => ApiAttempt.timeout) false 2).1.error = some "Timeout" := by
  obtain ⟨b1, b2, -, b5⟩ :=
    call_api_retry_and_failure (fun _ => ApiAttempt.timeout) false 2
  obtain ⟨r1, r2, -⟩ := b5 (fun i _ => trivial) (fun i => trivial)
  refine ⟨b1, b2, r1, r2, ?_⟩
  have h1 : call_api_loop (fun _ => ApiAttempt.timeout) false 2 1 =
      (⟨none, none, some "Timeout", none⟩, 1, []) := by
    rw [call_api_loop_timeout (by omega) rfl, if_pos rfl]
  have h0 : call_api (fun _ => ApiAttempt.timeout) false 2 =
      ((call_api_loop (fun _ => ApiAttempt.timeout) false 2 1).1,
       (call_api_loop (fun _ => ApiAttempt.timeout) false 2 1).2.1 + 1,
       (1/2 : ℚ) :: (call_api_loop (fun _ => ApiAttempt.timeout) false 2 1).2.2) := by
    rw [call_api, call_api_loop_timeout (by omega) rfl, if_neg (by omega)]
  rw [h0, h1]

/-! ## external_provider_adapter.py and the external threshold conversion -/

/-- An entity as returned by the ofac-api.com provider: integer 0–100 `score`,
plus identification and classification fields. `otype` models the `type` key
(a keyword in Lean). -/
structure OfacApiEntity where
  uid : Option String := none
  name : Option String := none
  score : Option Int := none
  otype : Option String := none
  source : Option String := none
  remarks : Option String := none
  programs : List String := []
  deriving DecidableEq, Repr

/-- `OFACAPIAdapter._map_entity_type`: lower-cased table lookup with the
original value as fallback; falsy input maps to `""`. -/
def map_entity_type (ofac_type : Option String) : String :=
  match ofac_type with
  | none => ""
  | some t =>
    if t = "" then ""
    else
      let tl := t.toLower
      if tl = "person" then "individual"
      else if tl = "individual" then "individual"
      else if tl = "organization" then "entity"
      else if tl = "entity" then "entity"
      else if tl = "vessel" then "vessel"
      else if tl = "aircraft" then "aircraft"
      else t

/-- `OFACAPIAdapter._map_source`: lower-cased table lookup with the
upper-cased original as fallback; falsy input maps to `""`. -/
def map_source (ofac_source : Option String) : String :=
  match ofac_source with
  | none => ""
  | some s =>
    if s = "" then ""
    else
      let sl := s.toLower
      if sl = "sdn" then "US-OFAC"
      else if sl = "nonsdn" then "US-OFAC-NonSDN"
      else if sl = "un" then "UN"
      else if sl = "eu" then "EU"
      else if sl = "ofsi" then "UK-OFSI"
      else s.toUpper

/-- The standardized entity produced by `_translate_to_standard_format`
(`matchScore` models the `match` key; `raw` models `_raw`). -/
structure StdEntity where
  id : Option String
  name : String
  matchScore : ℚ
  entityType : String
  sourceList : String
  remarks : String
  programs : List String
  raw : OfacApiEntity
  deriving DecidableEq, Repr

/-- `OFACAPIAdapter._translate_to_standard_format`: in particular the integer
0–100 score becomes `score / 100.0`, defaulting to 0 when absent. -/
def translate_to_standard_format (e : OfacApiEntity) : StdEntity :=
  { id := e.uid
    name := e.name.getD ""
    matchScore := ((e.score.getD 0 : ℤ) : ℚ) / 100
    entityType := map_entity_type e.otype
    sourceList := map_source e.source
    remarks := e.remarks.getD ""
    programs := e.programs
    raw := e }

/-- Python `int()` on a rational: truncation toward zero. -/
def pyInt (q : ℚ) : ℤ :=
  if 0 ≤ q then Int.floor q else Int.ceil q

/-- The conversion in `QueryExecutor._call_external`:
`min_score = int(min_match * 100)`. -/
def external_min_score (min_match : ℚ) : ℤ :=
  pyInt (min_match * 100)

/-- C6: an external score `s` in 0–100 standardizes to match `s / 100.0` in
[0, 1], an absent score standardizes to 0.0, and the 0.0–1.0 `min_match`
threshold converts to the provider scale as `int(min_match * 100)`, landing
in 0–100. -/
theorem external_score_scaling (e : OfacApiEntity) :
    (∀ s : ℤ, e.score = some s → 0 ≤ s → s ≤ 100 →
      (translate_to_standard_format e).matchScore = (s : ℚ) / 100 ∧
      0 ≤ (translate_to_standard_format e).matchScore ∧
      (translate_to_standard_format e).matchScore ≤ 1) ∧
    (e.score = none → (translate_to_standard_format e).matchScore = 0) ∧
    (∀ m : ℚ, 0 ≤ m → m ≤ 1 →
      external_min_score m = pyInt (m * 100) ∧
      0 ≤ external_min_score m ∧ external_min_score m ≤ 100) := by
  refine ⟨?_, ?_, ?_⟩
  · intro s hs h0 h100
    have hm : (translate_to_standard_format e).matchScore = (s : ℚ) / 100 := by
      unfold translate_to_standard_format
      rw [hs]
      rfl
    refine ⟨hm, ?_, ?_⟩
    · rw [hm]
      apply div_nonneg _ (by norm_num)
      exact_mod_cast h0
    · rw [hm, div_le_one (by norm_num)]
      exact_mod_cast h100
  · intro hs
    unfold translate_to_standard_format
    rw [hs]
    norm_num
  · intro m h0 h1
    have hmul0 : (0 : ℚ) ≤ m * 100 := by nlinarith
    have hmul1 : m * 100 ≤ 100 := by nlinarith
    have hpy : pyInt (m * 100) = Int.floor (m * 100) := by
      unfold pyInt
      rw [if_pos hmul0]
    refine ⟨rfl, ?_, ?_⟩
    · show (0 : ℤ) ≤ external_min_score m
      unfold external_min_score
      rw [hpy]
      exact Int.le_floor.mpr (by exact_mod_cast hmul0)
    · show external_min_score m ≤ 100
      unfold external_min_score
      rw [hpy]
      have := Int.floor_le_floor hmul1
      rwa [show Int.floor (100 : ℚ) = 100 by norm_num] at this

/-- Witness for C6: score 85 maps to 0.85, a missing score maps to 0.0, and
threshold 0.8 converts to 80. -/
theorem external_score_scaling_witness :
    (translate_to_standard_format
      { uid := some "u1", score := some 85 }).matchScore = (85 : ℚ) / 100 ∧
    (translate_to_standard_format { uid := some "u2" }).matchScore = 0 ∧
    (0 : ℤ) ≤ external_min_score (4/5) ∧ external_min_score (4/5) ≤ 100 :=
  ⟨((external_score_scaling { uid := some "u1", score := some 85 }).1
      85 rfl (by norm_num) (by norm_num)).1,
   (external_score_scaling { uid := some "u2" }).2.1 rfl,
   ((external_score_scaling { uid := some "u2" }).2.2 (4/5)
      (by norm_num) (by norm_num)).2.1,
   ((external_score_scaling { uid := some "u2" }).2.2 (4/5)
      (by norm_num) (by norm_num)).2.2⟩

/-! ## compare-implementations.py — `WatchmanClient._parse_results` -/

/-- An entry of the `"entities"` response array (the Go wire shape);
`matchScore` models the `match` key. -/
structure GoWireEntity where
  name : Option String := none
  entityType : Option String := none
  sourceList : Option String := none
  sourceID : Option String := none
  matchScore : Option ℚ := none
  deriving DecidableEq, Repr

/-- An entry of the `"results"` response array (the Java wire shape);
`jtype` models the `type` key (a keyword in Lean). -/
structure JavaWireItem where
  name : Option String := none
  jtype : Option String := none
  source : Option String := none
  entityId : Option String := none
  score : Option ℚ := none
  deriving DecidableEq, Repr

/-- A search API response as consumed by `_parse_results`: possibly an
`"entities"` array, possibly a `"results"` array (each defaulting to `[]`). -/
structure ApiResponse where
  entities : List GoWireEntity := []
  results : List JavaWireItem := []
  deriving DecidableEq, Repr

/-- The `SearchResult` dataclass: the normalized form shared by both
implementations (`alt_names` keeps its dataclass default). -/
structure SearchResult where
  name : String
  entity_type : String
  source : String
  entity_id : String
  score : ℚ
  alt_names : List String := []
  deriving DecidableEq, Repr

/-- Round half to even on a rational, as Python `round()` does on an exact
half; other values go to the nearest integer. -/
def round_half_even (q : ℚ) : ℤ :=
  if q - Int.floor q = 1/2 then
    (if Int.floor q % 2 = 0 then Int.floor q else Int.floor q + 1)
  else round q

/-- Python `round(x, 4)` on an exact rational. -/
def pyRound4 (q : ℚ) : ℚ :=
  ((round_half_even (q * 10000) : ℤ) : ℚ) / 10000

/-- `WatchmanClient._normalize_type`: `t.lower() if t else ""`. -/
def normalize_type (t : String) : String :=
  if t = "" then "" else t.toLower

/-- `WatchmanClient._normalize_source`: lower-case, strip `_` and `-`, then a
table lookup defaulting to the normalized text itself. -/
def normalize_source (s : String) : String :=
  if s = "" then ""
  else
    let s1 := ((s.toLower).replace "_" "").replace "-" ""
    if s1 = "usofac" then "ofac"
    else if s1 = "ofacsdn" then "ofac"
    else if s1 = "uscsl" then "csl"
    else if s1 = "eucsl" then "eucsl"
    else if s1 = "ukcsl" then "ukcsl"
    else s1

/-- One `"entities"` entry to a `SearchResult` (score from `match`,
rounded to 4 places). -/
def go_entity_to_result (e : GoWireEntity) : SearchResult :=
  { name := e.name.getD ""
    entity_type := normalize_type (e.entityType.getD "")
    source := normalize_source (e.sourceList.getD "")
    entity_id := e.sourceID.getD ""
    score := pyRound4 (e.matchScore.getD 0) }

/-- One `"results"` entry to a `SearchResult` (score from `score`,
rounded to 4 places). -/
def java_item_to_result (r : JavaWireItem) : SearchResult :=
  { name := r.name.getD ""
    entity_type := normalize_type (r.jtype.getD "")
    source := normalize_source (r.source.getD "")
    entity_id := r.entityId.getD ""
    score := pyRound4 (r.score.getD 0) }

/-- `WatchmanClient._parse_results` as written: an accumulator list receiving
one append per processed entry, trying the non-empty `"entities"` array first
and falling back to the `"results"` array. -/
def parse_results (data : ApiResponse) : List SearchResult :=
  if data.entities.isEmpty then
    data.results.foldl (fun acc r => acc ++ [java_item_to_result r]) []
  else
    data.entities.foldl (fun acc e => acc ++ [go_entity_to_result e]) []

/-- The specified normal form: per-entry translation of whichever array the
response carries, Go shape taking precedence when non-empty. -/
def parse_results_spec (data : ApiResponse) : List SearchResult :=
  if data.entities ≠ [] then data.entities.map go_entity_to_result
  else data.results.map java_item_to_result

theorem foldl_append_eq_map {α β : Type} (f : α → β) (l : List α) :
    ∀ acc : List β, l.foldl (fun a x => a ++ [f x]) acc = acc ++ l.map f := by
  induction l with
  | nil => intro acc; simp
  | cons x rest ih =>
    intro acc
    rw [List.foldl_cons, ih, List.map_cons]
    simp

/-- C7: `_parse_results` realizes the normal form — a non-empty `"entities"`
array yields one `SearchResult` per entry in order with the rounded `match`
score, otherwise the `"results"` array yields one per entry in order with the
rounded `score`. -/
theorem parse_results_normalizes (data : ApiResponse) :
    parse_results data = parse_results_spec data := by
  unfold parse_results parse_results_spec
  by_cases h : data.entities = []
  · rw [if_pos (by simp [h]), if_neg (by simp [h]),
        foldl_append_eq_map, List.nil_append]
  · rw [if_neg (by simp [h]), if_pos h, foldl_append_eq_map, List.nil_append]

/-! ## coverage_tracker.py — `get_prioritized_entities`

Python compares timestamps as strings; `chars_le` is the code-point
lexicographic order Python uses. `random.shuffle` is abstracted as an oracle
function assumed (in the theorem) to permute its input. Python `list.sort` is
a stable ascending sort; a stable ascending sort of a list is unique as a
function of the key, so the stable insertion sort below is observationally
the sort the source performs. -/

/-- Code-point lexicographic `<=` on character lists (Python string order). -/
def chars_le : List Char → List Char → Bool
  | [], _ => true
  | _ :: _, [] => false
  | a :: as, b :: bs =>
    if a.toNat < b.toNat then true
    else if b.toNat < a.toNat then false
    else chars_le as bs

/-- Python string `<=`. -/
def str_le (a b : String) : Bool := chars_le a.data b.data

theorem chars_le_total : ∀ a b, chars_le a b = true ∨ chars_le b a = true := by
  intro a
  induction a with
  | nil => intro b; left; rfl
  | cons x xs ih =>
    intro b
    cases b with
    | nil => right; rfl
    | cons y ys =>
      simp only [chars_le]
      by_cases hxy : x.toNat < y.toNat
      · left; rw [if_pos hxy]
      · by_cases hyx : y.toNat < x.toNat
        · right; rw [if_pos hyx]
        · rw [if_neg hxy, if_neg hyx, if_neg hyx, if_neg hxy]
          exact ih ys

theorem chars_le_trans :
    ∀ a b c, chars_le a b = true → chars_le b c = true →
      chars_le a c = true := by
  intro a
  induction a with
  | nil => intro b c _ _; rfl
  | cons x xs ih =>
    intro b c hab hbc
    cases b with
    | nil => simp [chars_le] at hab
    | cons y ys =>
      cases c with
      | nil => simp [chars_le] at hbc
      | cons z zs =>
        simp only [chars_le] at hab hbc ⊢
        by_cases hxy : x.toNat < y.toNat
        · rw [if_neg (by omega : ¬ y.toNat < x.toNat)] at hab
          by_cases hyz : y.toNat < z.toNat
          · rw [if_pos (by omega)]
          · rw [if_neg hyz] at hbc
            by_cases hzy : z.toNat < y.toNat
            · rw [if_pos hzy] at hbc
              exact absurd hbc (by simp)
            · rw [if_pos (by omega)]
        · rw [if_neg hxy] at hab
          by_cases hyx : y.toNat < x.toNat
          · rw [if_pos hyx] at hab
            exact absurd hab (by simp)
          · rw [if_neg hyx] at hab
            by_cases hyz : y.toNat < z.toNat
            · rw [if_pos (by omega)]
            · rw [if_neg hyz] at hbc
              by_cases hzy : z.toNat < y.toNat
              · rw [if_pos hzy] at hbc
                exact absurd hbc (by simp)
              · rw [if_neg hzy] at hbc
                rw [if_neg (by omega), if_neg (by omega)]
                exact ih ys zs hab hbc

theorem str_le_total (a b : String) :
    str_le a b = true ∨ str_le b a = true :=
  chars_le_total a.data b.data

theorem str_le_trans {a b c : String} (hab : str_le a b = true)
    (hbc : str_le b c = true) : str_le a c = true :=
  chars_le_trans a.data b.data c.data hab hbc

/-- An entry of `all_entities`: a record carrying at least an `"id"` (read
directly by the source) and a name. -/
structure PEntity where
  id : String
  name : String := ""
  deriving DecidableEq, Repr

/-- The sort key of `get_prioritized_entities`:
`self.state["entity_stats"].get(entity["id"], {}).get("last_tested",
"1970-01-01")`. A stats entry always has `last_tested` set after
`record_test`, so the inner default also stands in for that reachable case. -/
def last_tested_key (st : CoverageState) (e : PEntity) : String :=
  match pyLookup e.id st.entity_stats with
  | none => "1970-01-01"
  | some stats => stats.last_tested.getD "1970-01-01"

/-- Stable insertion of `x` into a key-sorted list: `x` goes before the first
element whose key is not strictly below `x`'s. -/
def insert_by_key (key : PEntity → String) (x : PEntity) :
    List PEntity → List PEntity
  | [] => [x]
  | y :: ys =>
    if !(str_le (key x) (key y)) then y :: insert_by_key key x ys
    else x :: y :: ys

/-- Stable ascending sort by key (Python `list.sort(key=...)`). -/
def sort_by_key (key : PEntity → String) : List PEntity → List PEntity
  | [] => []
  | x :: xs => insert_by_key key x (sort_by_key key xs)

/-- `CoverageTracker.get_prioritized_entities`: untested entities first (in
shuffled order, up to `count`), then least-recently-tested entities to fill
the remaining slots, finally truncated to `count`. -/
def get_prioritized_entities (shuffle : List PEntity → List PEntity)
    (st : CoverageState) (all_entities : List PEntity) (count : Nat) :
    List PEntity :=
  let untested := all_entities.filter
    (fun e => !(decide (e.id ∈ st.tested_entity_ids)))
  let tested := all_entities.filter
    (fun e => decide (e.id ∈ st.tested_entity_ids))
  let prioritized := if untested ≠ [] then (shuffle untested).take count else []
  let prioritized2 :=
    if prioritized.length < count ∧ tested ≠ [] then
      prioritized ++
        (sort_by_key (last_tested_key st) tested).take
          (count - prioritized.length)
    else prioritized
  prioritized2.take count

theorem insert_by_key_perm (key : PEntity → String) (x : PEntity)
    (l : List PEntity) : (insert_by_key key x l).Perm (x :: l) := by
  induction l with
  | nil => exact List.Perm.refl [x]
  | cons y ys ih =>
    unfold insert_by_key
    split_ifs
    · exact (ih.cons y).trans (List.Perm.swap x y ys)
    · exact List.Perm.refl _

theorem sort_by_key_perm (key : PEntity → String) (l : List PEntity) :
    (sort_by_key key l).Perm l := by
  induction l with
  | nil => exact List.Perm.refl []
  | cons x xs ih =>
    exact (insert_by_key_perm key x (sort_by_key key xs)).trans (ih.cons x)

theorem insert_by_key_sorted (key : PEntity → String) (x : PEntity)
    {l : List PEntity}
    (hl : l.Pairwise (fun a b => str_le (key a) (key b) = true)) :
    (insert_by_key key x l).Pairwise
      (fun a b => str_le (key a) (key b) = true) := by
  induction l with
  | nil => simp [insert_by_key]
  | cons y ys ih =>
    rw [List.pairwise_cons] at hl
    obtain ⟨hy, hys⟩ := hl
    unfold insert_by_key
    split_ifs with hcond
    · rw [List.pairwise_cons]
      refine ⟨?_, ih hys⟩
      intro z hz
      have hz2 := (insert_by_key_perm key x ys).mem_iff.mp hz
      rcases List.mem_cons.mp hz2 with hzx | hzys
      · subst hzx
        rw [Bool.not_eq_true'] at hcond
        rcases str_le_total (key z) (key y) with h | h
        · rw [hcond] at h
          exact absurd h (by simp)
        · exact h
      · exact hy z hzys
    · rw [List.pairwise_cons]
      have hxy : str_le (key x) (key y) = true := by
        cases hxyb : str_le (key x) (key y) with
        | false => exact absurd (by rw [hxyb]; rfl) hcond
        | true => rfl
      refine ⟨?_, List.pairwise_cons.mpr ⟨hy, hys⟩⟩
      intro z hz
      rcases List.mem_cons.mp hz with hzy | hzys
      · subst hzy; exact hxy
      · exact str_le_trans hxy (hy z hzys)

theorem sort_by_key_sorted (key : PEntity → String) (l : List PEntity) :
    (sort_by_key key l).Pairwise
      (fun a b => str_le (key a) (key b) = true) := by
  induction l with
  | nil => simp [sort_by_key]
  | cons x xs ih => exact insert_by_key_sorted key x ih

/-- C9: `get_prioritized_entities` returns at most `count` entities; it
returns an already-tested entity only when fewer than `count` entities are
untested; every returned untested entity precedes every returned tested one;
and the tested fill is an initial segment of the tested entities sorted
ascending by `last_tested` (least recently tested first). -/
theorem get_prioritized_entities_spec
    (shuffle : List PEntity → List PEntity)
    (hshuffle : ∀ l, (shuffle l).Perm l)
    (st : CoverageState) (all_entities : List PEntity) (count : Nat) :
    (get_prioritized_entities shuffle st all_entities count).length ≤ count ∧
    (∀ e ∈ get_prioritized_entities shuffle st all_entities count,
        e.id ∈ st.tested_entity_ids →
        (all_entities.filter
          (fun e2 => !(decide (e2.id ∈ st.tested_entity_ids)))).length
          < count) ∧
    (∃ u r, get_prioritized_entities shuffle st all_entities count =
        u ++ (sort_by_key (last_tested_key st)
          (all_entities.filter
            (fun e2 => decide (e2.id ∈ st.tested_entity_ids)))).take r ∧
      (∀ e ∈ u, e.id ∉ st.tested_entity_ids) ∧
      (∀ e ∈ (sort_by_key (last_tested_key st)
          (all_entities.filter
            (fun e2 => decide (e2.id ∈ st.tested_entity_ids)))).take r,
        e.id ∈ st.tested_entity_ids) ∧
      ((sort_by_key (last_tested_key st)
          (all_entities.filter
            (fun e2 => decide (e2.id ∈ st.tested_entity_ids)))).take r).Pairwise
        (fun a b =>
          str_le (last_tested_key st a) (last_tested_key st b) = true)) := by
  set U := all_entities.filter
    (fun e2 => !(decide (e2.id ∈ st.tested_entity_ids))) with hU
  set T := all_entities.filter
    (fun e2 => decide (e2.id ∈ st.tested_entity_ids)) with hT
  have hUmem : ∀ e ∈ U, e.id ∉ st.tested_entity_ids := by
    intro e he
    rw [hU, List.mem_filter] at he
    simpa using he.2
  have hTmem : ∀ e ∈ T, e.id ∈ st.tested_entity_ids := by
    intro e he
    rw [hT, List.mem_filter] at he
    simpa using he.2
  set prio := (if U ≠ [] then (shuffle U).take count else []) with hprio
  have hprio_mem : ∀ e ∈ prio, e.id ∉ st.tested_entity_ids := by
    intro e he
    rw [hprio] at he
    split_ifs at he with hne
    · exact hUmem e (((hshuffle U).mem_iff).mp
        ((List.take_sublist count (shuffle U)).subset he))
    · cases he
  have hprio_len : prio.length ≤ count := by
    rw [hprio]
    split_ifs
    · rw [List.length_take]
      exact Nat.min_le_left _ _
    · exact Nat.zero_le count
  have hsorted := sort_by_key_sorted (last_tested_key st) T
  have hsortmem : ∀ r, ∀ e ∈ (sort_by_key (last_tested_key st) T).take r,
      e.id ∈ st.tested_entity_ids := by
    intro r e he
    exact hTmem e ((sort_by_key_perm (last_tested_key st) T).mem_iff.mp
      ((List.take_sublist r _).subset he))
  have hsortpair : ∀ r, ((sort_by_key (last_tested_key st) T).take r).Pairwise
      (fun a b => str_le (last_tested_key st a) (last_tested_key st b) = true) :=
    fun r => List.Pairwise.sublist (List.take_sublist r _) hsorted
  show (get_prioritized_entities shuffle st all_entities count).length ≤ count ∧ _
  rw [get_prioritized_entities]
  simp only [← hU, ← hT, ← hprio]
  by_cases hcond : prio.length < count ∧ T ≠ []
  · rw [if_pos hcond]
    set r := count - prio.length with hr
    have hfill_len : ((sort_by_key (last_tested_key st) T).take r).length ≤ r := by
      rw [List.length_take]
      exact Nat.min_le_left _ _
    have htot : (prio ++ (sort_by_key (last_tested_key st) T).take r).length
        ≤ count := by
      rw [List.length_append]
      omega
    rw [List.take_of_length_le htot]
    refine ⟨htot, ?_, ?_⟩
    · intro e he hetested
      have hUlen : U.length < count := by
        rw [hprio] at hcond
        by_cases hne : U ≠ []
        · rw [if_pos hne, List.length_take] at hcond
          have hlen := (hshuffle U).length_eq
          omega
        · push_neg at hne
          rw [hne]
          simp only [List.length_nil]
          rw [if_neg (by simp [hne])] at hcond
          omega
      exact hUlen
    · exact ⟨prio, r, rfl, hprio_mem, hsortmem r, hsortpair r⟩
  · rw [if_neg hcond]
    have hlen2 : (prio.take count).length ≤ count := by
      rw [List.length_take]
      exact Nat.min_le_left _ _
    refine ⟨hlen2, ?_, ?_⟩
    · intro e he hetested
      exact absurd hetested
        (hprio_mem e ((List.take_sublist count prio).subset he))
    · refine ⟨prio.take count, 0, by simp, ?_, by simp, by simp⟩
      intro e he
      exact hprio_mem e ((List.take_sublist count prio).subset he)

/-- Witness for C9: two candidates, one already tested, one slot requested. -/
theorem get_prioritized_entities_spec_witness :
    (get_prioritized_entities id
      { init_state 2 with tested_entity_ids := ["a"] }
      [{ id := "a" }, { id := "b" }] 1).length ≤ 1 ∧
    (∀ e ∈ get_prioritized_entities id
        { init_state 2 with tested_entity_ids := ["a"] }
        [{ id := "a" }, { id := "b" }] 1,
      e.id ∈ ({ init_state 2 with
        tested_entity_ids := ["a"] } : CoverageState).tested_entity_ids →
      ([{ id := "a" }, { id := "b" }].filter
        (fun e2 : PEntity => !(decide (e2.id ∈ ({ init_state 2 with
          tested_entity_ids := ["a"] } : CoverageState).tested_entity_ids)))).length
        < 1) :=
  ⟨(get_prioritized_entities_spec id (fun l => List.Perm.refl l)
      { init_state 2 with tested_entity_ids := ["a"] }
      [{ id := "a" }, { id := "b" }] 1).1,
   (get_prioritized_entities_spec id (fun l => List.Perm.refl l)
      { init_state 2 with tested_entity_ids := ["a"] }
      [{ id := "a" }, { id := "b" }] 1).2.1⟩

/-! ## result_analyzer.py — `compare_three_way` -/

/-- The local `normalize_id` of `compare_three_way`: falsy ids become `None`,
then the first matching source marker among `sdn-`, `ofac-`, `un-`, `eu-` is
stripped (once) from the front. `entity_id.startswith(p)` and the slice
`entity_id[len(p):]` are taken on the character list. -/
def normalize_id : Option String → Option String
  | none => none
  | some s =>
    if s = "" then none
    else if ("sdn-".data).isPrefixOf s.data then some (String.mk (s.data.drop 4))
    else if ("ofac-".data).isPrefixOf s.data then
      some (String.mk (s.data.drop 5))
    else if ("un-".data).isPrefixOf s.data then some (String.mk (s.data.drop 3))
    else if ("eu-".data).isPrefixOf s.data then some (String.mk (s.data.drop 3))
    else some s

/-- `ResultAnalyzer.compare_three_way`: agreement-pattern analysis of the
three top results, on normalized ids. -/
def compare_three_way (java_results go_results external_results : List Entity) :
    List Divergence :=
  if java_results = [] ∧ go_results = [] ∧ external_results = [] then []
  else
    let java_top := java_results.head?
    let go_top := go_results.head?
    let external_top := external_results.head?
    let java_top_id := normalize_id (java_top.bind get_entity_id)
    let go_top_id := normalize_id (go_top.bind get_entity_id)
    let external_top_id := normalize_id (external_top.bind get_entity_id)
    if java_top_id = go_top_id ∧ go_top_id = external_top_id ∧
        java_top_id ≠ none then
      let java_score := (java_top.map get_entity_score).getD 0
      let go_score := (go_top.map get_entity_score).getD 0
      let external_score := (external_top.map get_entity_score).getD 0
      let max_diff := max (|java_score - go_score|)
        (max (|java_score - external_score|) (|go_score - external_score|))
      if max_diff > 1/10 then
        [{ dtype := .SCORE_DIFFERENCE, severity := "moderate",
           java_data := java_top, go_data := go_top,
           external_data := external_top,
           score_difference := some max_diff,
           agreement_pattern := some "all_agree_entity" }]
      else []
    else if java_top_id = go_top_id ∧ java_top_id ≠ external_top_id then
      [{ dtype := .TWO_VS_ONE, severity := "moderate",
         java_data := java_top, go_data := go_top,
         external_data := external_top,
         agreement_pattern := some "java+go vs external" }]
    else if java_top_id = external_top_id ∧ java_top_id ≠ go_top_id then
      [{ dtype := .TWO_VS_ONE, severity := "critical",
         java_data := java_top, go_data := go_top,
         external_data := external_top,
         agreement_pattern := some "java+external vs go" }]
    else if go_top_id = external_top_id ∧ go_top_id ≠ java_top_id then
      [{ dtype := .TWO_VS_ONE, severity := "critical",
         java_data := java_top, go_data := go_top,
         external_data := external_top,
         agreement_pattern := some "go+external vs java" }]
    else
      [{ dtype := .THREE_WAY_SPLIT, severity := "minor",
         java_data := java_top, go_data := go_top,
         external_data := external_top,
         agreement_pattern := some "all_differ" }]

/-- Counterexample to C8 as stated: the Java and Go top ids
`"sdn-un-99"` / `"un-99"` differ only by the leading `"sdn-"` prefix, yet
because `normalize_id` also strips `"un-"` from the bare `"un-99"`, the two
normalize differently and `compare_three_way` emits a `TWO_VS_ONE` divergence
separating Java from Go. -/
theorem compare_three_way_prefix_counterexample :
    get_entity_id { id := some "sdn-un-99" } = some ("sdn-" ++ "un-99") ∧
    get_entity_id { id := some "un-99" } = some "un-99" ∧
    (compare_three_way [{ id := some "sdn-un-99" }] [{ id := some "un-99" }]
        [{ id := some "un-99" }]).map
      (fun d => (d.dtype, d.severity, d.agreement_pattern)) =
      [(DivergenceType.TWO_VS_ONE, "critical", some "go+external vs java")] := by
  refine ⟨by decide, by decide, ?_⟩
  decide

/-- C8 (amended): when the two top ids have equal, non-`None` normalizations
(one leading source prefix stripped), `compare_three_way` emits no
`THREE_WAY_SPLIT` and no `TWO_VS_ONE` divergence separating Java from Go,
whereas the two-way `compare` applies no normalization: raw id inequality
still yields its `TOP_RESULT_DIFFERS`. -/
theorem compare_three_way_prefix_normalization (jt gt : Entity)
    (jr gr E : List Entity)
    (h1 : normalize_id (get_entity_id jt) = normalize_id (get_entity_id gt))
    (h2 : normalize_id (get_entity_id jt) ≠ none) :
    (compare_three_way (jt :: jr) (gt :: gr) E).countP
      (fun d => decide (d.dtype = DivergenceType.THREE_WAY_SPLIT ∨
        (d.dtype = DivergenceType.TWO_VS_ONE ∧
         d.agreement_pattern ≠ some "java+go vs external"))) = 0 ∧
    (get_entity_id jt ≠ get_entity_id gt →
      (compare (jt :: jr) (gt :: gr)).countP
        (fun d => decide (d.dtype = DivergenceType.TOP_RESULT_DIFFERS)) = 1) := by
  constructor
  · rw [compare_three_way, if_neg (by simp)]
    simp only [List.head?_cons, Option.some_bind]
    by_cases he : normalize_id (get_entity_id jt) =
        normalize_id (E.head?.bind get_entity_id)
    · rw [if_pos ⟨h1, by rw [← h1]; exact he, h2⟩]
      split_ifs
      · simp
      · simp
    · rw [if_neg (fun hc => he (hc.1.trans hc.2.1)),
          if_pos ⟨h1, he⟩]
      simp
  · intro hne
    rw [compare_cons_cons, if_pos hne, List.countP_append, List.countP_append,
        List.countP_append]
    have hpTop : ∀ d : Divergence,
        d.dtype ≠ DivergenceType.TOP_RESULT_DIFFERS →
        (decide (d.dtype = DivergenceType.TOP_RESULT_DIFFERS)) = false := by
      intro d hd; simp [hd]
    obtain ⟨h1c, h2c, h3c⟩ := countP_nontop_chunks _ hpTop
      (results_by_id (gt :: gr)) (results_by_id (jt :: jr))
    obtain ⟨-, -, h4c⟩ := countP_nontop_chunks _ hpTop
      (results_by_id (jt :: jr)) (results_by_id (gt :: gr))
    rw [h1c, h2c, h4c]
    simp [List.countP_cons, top_result_div]

/-- Witness for the amended C8: ids `"sdn-123"` and `"123"` normalize
identically, so the three-way comparison emits nothing separating Java from
Go, while the two-way comparison still emits its top-result divergence. -/
theorem compare_three_way_prefix_normalization_witness :
    (compare_three_way [{ id := some "sdn-123" }] [{ id := some "123" }]
        []).countP
      (fun d => decide (d.dtype = DivergenceType.THREE_WAY_SPLIT ∨
        (d.dtype = DivergenceType.TWO_VS_ONE ∧
         d.agreement_pattern ≠ some "java+go vs external"))) = 0 ∧
    (compare [{ id := some "sdn-123" }] [{ id := some "123" }]).countP
      (fun d => decide (d.dtype = DivergenceType.TOP_RESULT_DIFFERS)) = 1 :=
  ⟨(compare_three_way_prefix_normalization { id := some "sdn-123" }
      { id := some "123" } [] [] [] (by decide) (by decide)).1,
   (compare_three_way_prefix_normalization { id := some "sdn-123" }
      { id := some "123" } [] [] [] (by decide) (by decide)).2 (by decide)⟩

end Watchman
